import Mathlib

/-!
Verification of the decision engine of `optimizer_core.py` (Amazon PPC
automation suite).  Python floats are modelled by exact rationals `ℚ`;
the `float('inf')` sentinel used for ACOS is modelled by `⊤ : WithTop ℚ`;
`round(x, 2)` is modelled by round-half-to-even on rationals (Python's
documented rounding rule).  Fallible operations take their outside-world
responses (HTTP request results, report ids, report URLs) as explicit
`Option`-valued oracle arguments.
-/

/-- Round-half-to-even to an integer, Python's `round` rule on exact values. -/
def pyRoundInt (q : ℚ) : ℤ :=
  if q - ⌊q⌋ < 1/2 then ⌊q⌋
  else if 1/2 < q - ⌊q⌋ then ⌊q⌋ + 1
  else if ⌊q⌋ % 2 = 0 then ⌊q⌋ else ⌊q⌋ + 1

/-- Python `round(x, 2)`: round to 2 decimal places, half to even. -/
def round2 (q : ℚ) : ℚ := (pyRoundInt (q * 100) : ℚ) / 100

/-- `PerformanceMetrics` dataclass (optimizer_core.py lines 146-169). -/
structure PerformanceMetrics where
  impressions : ℤ
  clicks : ℤ
  cost : ℚ
  sales : ℚ
  orders : ℤ
  deriving DecidableEq

/-- `ctr` property: `(clicks / impressions) if impressions > 0 else 0.0`. -/
def PerformanceMetrics.ctr (m : PerformanceMetrics) : ℚ :=
  if 0 < m.impressions then (m.clicks : ℚ) / (m.impressions : ℚ) else 0

/-- `acos` property: `(cost / sales) if sales > 0 else float('inf')`. -/
def PerformanceMetrics.acos (m : PerformanceMetrics) : WithTop ℚ :=
  if 0 < m.sales then ((m.cost / m.sales : ℚ) : WithTop ℚ) else ⊤

/-- `roas` property: `(sales / cost) if cost > 0 else 0.0`. -/
def PerformanceMetrics.roas (m : PerformanceMetrics) : ℚ :=
  if 0 < m.cost then m.sales / m.cost else 0

/-- `cpc` property: `(cost / clicks) if clicks > 0 else 0.0`. -/
def PerformanceMetrics.cpc (m : PerformanceMetrics) : ℚ :=
  if 0 < m.clicks then m.cost / (m.clicks : ℚ) else 0

/-- The `bid_optimization.*` configuration values read by
`BidOptimizer._calculate_new_bid` (optimizer_core.py lines 1084-1092). -/
structure BidConfig where
  min_clicks : ℤ
  min_spend : ℚ
  target_acos : ℚ
  high_acos : ℚ
  low_acos : ℚ
  up_pct : ℚ
  down_pct : ℚ
  min_bid : ℚ
  max_bid : ℚ
  deriving DecidableEq

/-- Branch structure of `BidOptimizer._calculate_new_bid`
(optimizer_core.py lines 1094-1111), i.e. the value of `new_bid`
before the final clamp and round (`None` = no decision). -/
def calculate_new_bid_pre (cfg : BidConfig) (current_bid : ℚ)
    (m : PerformanceMetrics) : Option ℚ :=
  if m.clicks < cfg.min_clicks ∧ m.cost < cfg.min_spend then none
  else if m.sales ≤ 0 ∧ cfg.min_clicks ≤ m.clicks then
    some (current_bid * (1 - cfg.down_pct))
  else if (cfg.high_acos : WithTop ℚ) < m.acos then
    some (current_bid * (1 - cfg.down_pct))
  else if m.acos < (cfg.low_acos : WithTop ℚ) ∧ 0 < m.sales then
    some (current_bid * (1 + cfg.up_pct))
  else none

/-- `BidOptimizer._calculate_new_bid` (optimizer_core.py lines 1081-1116):
the branch value of `calculate_new_bid_pre`, then
`new_bid = max(min_bid, min(max_bid, new_bid))` and `round(new_bid, 2)`. -/
def calculate_new_bid (cfg : BidConfig) (current_bid : ℚ)
    (m : PerformanceMetrics) : Option ℚ :=
  match calculate_new_bid_pre cfg current_bid m with
  | none => none
  | some nb => some (round2 (max cfg.min_bid (min cfg.max_bid nb)))

/-- ACOS as the spec describes it: `cost/sales` when `sales > 0`,
`+∞` when `sales = 0` (stated for nonnegative sales). -/
def spec_acos (cost sales : ℚ) : WithTop ℚ :=
  if 0 < sales then ((cost / sales : ℚ) : WithTop ℚ) else ⊤

/-- The bid rule exactly as claim C1 words it (spec §4.4): skip on
insufficient signal, decrease on zero sales with enough clicks, decrease on
high ACOS, increase on low ACOS with sales, otherwise no decision. -/
def spec_bid_rule (cfg : BidConfig) (current_bid : ℚ)
    (m : PerformanceMetrics) : Option ℚ :=
  if m.clicks < cfg.min_clicks ∧ m.cost < cfg.min_spend then none
  else if m.sales = 0 ∧ cfg.min_clicks ≤ m.clicks then
    some (current_bid * (1 - cfg.down_pct))
  else if (cfg.high_acos : WithTop ℚ) < spec_acos m.cost m.sales then
    some (current_bid * (1 - cfg.down_pct))
  else if spec_acos m.cost m.sales < (cfg.low_acos : WithTop ℚ) ∧ 0 < m.sales then
    some (current_bid * (1 + cfg.up_pct))
  else none

/-- C1: for every keyword with a matching performance row (report values
have nonnegative sales), the pre-clamp bid rule of
`BidOptimizer._calculate_new_bid` is exactly the rule stated in the claim:
skip when `clicks < min_clicks` and `cost < min_spend`; decrease by
`down_pct` when `sales = 0` and `clicks ≥ min_clicks`; else decrease when
`acos > high_acos`; else increase by `up_pct` when `acos < low_acos` and
`sales > 0`; else no decision, with `acos = cost/sales` for positive sales
and `+∞` for zero sales. -/
theorem c1_bid_rule (cfg : BidConfig) (current_bid : ℚ)
    (m : PerformanceMetrics) (h : 0 ≤ m.sales) :
    calculate_new_bid_pre cfg current_bid m = spec_bid_rule cfg current_bid m := by
  have hs : (m.sales ≤ 0) = (m.sales = 0) :=
    propext ⟨fun h2 => le_antisymm h2 h, fun h2 => le_of_eq h2⟩
  simp only [calculate_new_bid_pre, spec_bid_rule, PerformanceMetrics.acos,
    spec_acos, hs]

/-- C1 witness: the rule agreement evaluated at a concrete keyword
(bid $1.00, 30 clicks, $20 cost, $0 sales) under the default thresholds. -/
theorem c1_bid_rule_witness :
    (0 : ℚ) ≤ (⟨100, 30, 20, 0, 0⟩ : PerformanceMetrics).sales ∧
      calculate_new_bid_pre ⟨25, 5, 45/100, 60/100, 25/100, 15/100, 20/100, 25/100, 5⟩
          1 ⟨100, 30, 20, 0, 0⟩ =
        spec_bid_rule ⟨25, 5, 45/100, 60/100, 25/100, 15/100, 20/100, 25/100, 5⟩
          1 ⟨100, 30, 20, 0, 0⟩ :=
  ⟨by decide,
   c1_bid_rule ⟨25, 5, 45/100, 60/100, 25/100, 15/100, 20/100, 25/100, 5⟩
     1 ⟨100, 30, 20, 0, 0⟩ (by decide)⟩

theorem floor_le_pyRoundInt (q : ℚ) : ⌊q⌋ ≤ pyRoundInt q := by
  unfold pyRoundInt
  split_ifs <;> omega

theorem le_pyRoundInt_of_le (A : ℤ) (q : ℚ) (h : (A : ℚ) ≤ q) :
    A ≤ pyRoundInt q :=
  le_trans (Int.le_floor.mpr h) (floor_le_pyRoundInt q)

theorem pyRoundInt_le_of_le (B : ℤ) (q : ℚ) (h : q ≤ (B : ℚ)) :
    pyRoundInt q ≤ B := by
  have hf : ⌊q⌋ ≤ B := by
    have := Int.floor_le_floor h
    simpa using this
  have hsucc : (1 : ℚ)/2 ≤ q - ⌊q⌋ → ⌊q⌋ + 1 ≤ B := by
    intro hh
    have h1 : (⌊q⌋ : ℚ) < q := by linarith
    have h2 : (⌊q⌋ : ℚ) < (B : ℚ) := lt_of_lt_of_le h1 h
    have h3 : ⌊q⌋ < B := by exact_mod_cast h2
    omega
  unfold pyRoundInt
  split_ifs with h1 h2 h3
  · exact hf
  · exact hsucc (le_of_lt h2)
  · exact hf
  · exact hsucc (by linarith)

theorem round2_bounds (A B : ℤ) (q : ℚ)
    (h1 : (A : ℚ)/100 ≤ q) (h2 : q ≤ (B : ℚ)/100) :
    (A : ℚ)/100 ≤ round2 q ∧ round2 q ≤ (B : ℚ)/100 := by
  have hA : (A : ℚ) ≤ q * 100 := by linarith
  have hB : q * 100 ≤ (B : ℚ) := by linarith
  have h3 : A ≤ pyRoundInt (q * 100) := le_pyRoundInt_of_le A _ hA
  have h4 : pyRoundInt (q * 100) ≤ B := pyRoundInt_le_of_le B _ hB
  have h3q : (A : ℚ) ≤ (pyRoundInt (q * 100) : ℚ) := by exact_mod_cast h3
  have h4q : ((pyRoundInt (q * 100) : ℤ) : ℚ) ≤ (B : ℚ) := by exact_mod_cast h4
  constructor
  · unfold round2; linarith
  · unfold round2; linarith

/-- C2 counterexample: under the configuration with `min_bid = 0.25 ≤
max_bid = 0.256`, a keyword with bid $5.00 and a no-sales row is clamped to
`0.256` and then rounded to `0.26 > max_bid`, so the emitted bid violates
`resulting_bid ≤ max_bid` even though `min_bid ≤ max_bid` holds. -/
theorem c2_clamp_counterexample :
    (⟨25, 5, 45/100, 60/100, 25/100, 15/100, 20/100, 25/100, 32/125⟩ :
        BidConfig).min_bid ≤
      (⟨25, 5, 45/100, 60/100, 25/100, 15/100, 20/100, 25/100, 32/125⟩ :
        BidConfig).max_bid ∧
    calculate_new_bid
        ⟨25, 5, 45/100, 60/100, 25/100, 15/100, 20/100, 25/100, 32/125⟩
        5 ⟨100, 30, 20, 0, 0⟩ = some (13/50) ∧
    ¬ ((13 : ℚ)/50 ≤
        (⟨25, 5, 45/100, 60/100, 25/100, 15/100, 20/100, 25/100, 32/125⟩ :
          BidConfig).max_bid) := by
  refine ⟨by norm_num, ?_, by norm_num⟩
  norm_num [calculate_new_bid, calculate_new_bid_pre, PerformanceMetrics.acos,
    round2, pyRoundInt, min_def, max_def]

/-- C2 (amended): whenever `min_bid ≤ max_bid` are both whole-cent amounts
(exact 2-decimal values), every bid decision emitted by
`BidOptimizer._calculate_new_bid` — clamped to `[min_bid, max_bid]` and
then rounded to 2 decimals — stays within `[min_bid, max_bid]`. -/
theorem c2_bid_within_bounds (cfg : BidConfig) (current_bid : ℚ)
    (m : PerformanceMetrics) (A B : ℤ)
    (hA : cfg.min_bid = (A : ℚ)/100) (hB : cfg.max_bid = (B : ℚ)/100)
    (hle : cfg.min_bid ≤ cfg.max_bid) (r : ℚ)
    (hr : calculate_new_bid cfg current_bid m = some r) :
    cfg.min_bid ≤ r ∧ r ≤ cfg.max_bid := by
  unfold calculate_new_bid at hr
  cases hpre : calculate_new_bid_pre cfg current_bid m with
  | none => rw [hpre] at hr; exact absurd hr (by simp)
  | some nb =>
      rw [hpre] at hr
      have hrv : r = round2 (max cfg.min_bid (min cfg.max_bid nb)) := by
        simpa using hr.symm
      have hv1 : (A : ℚ)/100 ≤ max cfg.min_bid (min cfg.max_bid nb) := by
        rw [← hA]; exact le_max_left _ _
      have hv2 : max cfg.min_bid (min cfg.max_bid nb) ≤ (B : ℚ)/100 := by
        rw [← hB]; exact max_le hle (min_le_left _ _)
      have hb := round2_bounds A B (max cfg.min_bid (min cfg.max_bid nb)) hv1 hv2
      constructor
      · rw [hrv]; exact hA.le.trans hb.1
      · rw [hrv]; exact hb.2.trans hB.ge

/-- C2 witness: the amended bound evaluated at a whole-cent configuration
(`min_bid = 0.25`, `max_bid = 5.00`) and a no-sales row forcing a
decrease from bid $5.00. -/
theorem c2_bid_within_bounds_witness :
    (⟨25, 5, 45/100, 60/100, 25/100, 15/100, 20/100, 25/100, 5⟩ :
        BidConfig).min_bid = ((25 : ℤ) : ℚ)/100 ∧
    calculate_new_bid ⟨25, 5, 45/100, 60/100, 25/100, 15/100, 20/100, 25/100, 5⟩
        5 ⟨100, 30, 20, 0, 0⟩ = some 4 ∧
    ((⟨25, 5, 45/100, 60/100, 25/100, 15/100, 20/100, 25/100, 5⟩ :
        BidConfig).min_bid ≤ 4 ∧
      (4 : ℚ) ≤ (⟨25, 5, 45/100, 60/100, 25/100, 15/100, 20/100, 25/100, 5⟩ :
        BidConfig).max_bid) :=
  ⟨by norm_num,
   by
     norm_num [calculate_new_bid, calculate_new_bid_pre, PerformanceMetrics.acos,
       round2, pyRoundInt, min_def, max_def],
   c2_bid_within_bounds
     ⟨25, 5, 45/100, 60/100, 25/100, 15/100, 20/100, 25/100, 5⟩
     5 ⟨100, 30, 20, 0, 0⟩ 25 500 (by norm_num) (by norm_num) (by norm_num)
     4 (by
       norm_num [calculate_new_bid, calculate_new_bid_pre, PerformanceMetrics.acos,
         round2, pyRoundInt, min_def, max_def])⟩

/-- `Keyword` dataclass (optimizer_core.py lines 134-143). -/
structure Keyword where
  keyword_id : String
  ad_group_id : String
  campaign_id : String
  keyword_text : String
  match_type : String
  state : String
  bid : ℚ
  deriving DecidableEq

/-- One row of the keywords performance report consumed by
`BidOptimizer.optimize`. -/
structure KwReportRow where
  keywordId : String
  impressions : ℤ
  clicks : ℤ
  cost : ℚ
  sales : ℚ
  orders : ℤ
  deriving DecidableEq

/-- The `PerformanceMetrics(...)` constructed from a report row
(optimizer_core.py lines 1029-1035). -/
def row_metrics (row : KwReportRow) : PerformanceMetrics :=
  ⟨row.impressions, row.clicks, row.cost, row.sales, row.orders⟩

/-- `keyword_map = {kw.keyword_id: kw for kw in keywords}` — dict lookup,
last entry wins on duplicate ids. -/
def keyword_map (kws : List Keyword) (id : String) : Option Keyword :=
  kws.reverse.find? (fun kw => kw.keyword_id == id)

/-- The counter dict initialized at the top of `BidOptimizer.optimize`
(optimizer_core.py lines 982-987). -/
structure BidResults where
  keywords_analyzed : ℕ
  bids_increased : ℕ
  bids_decreased : ℕ
  no_change : ℕ
  deriving DecidableEq

/-- Loop state of `BidOptimizer.optimize`: counters, audit entries
`(keyword_id, old_bid, new_bid)`, and queued `keyword_updates`. -/
structure BidAcc where
  results : BidResults
  audits : List (String × ℚ × ℚ)
  updates : List (String × ℚ)
  deriving DecidableEq

/-- One iteration of the `for idx, row in enumerate(report_data)` loop of
`BidOptimizer.optimize` (optimizer_core.py lines 1020-1064): skip unmatched
rows, compute the new bid, and — only when `new_bid` is truthy (not `None`
and not `0.0`) and `abs(new_bid - keyword.bid) > 0.01` — log an audit entry
and queue a batch update; otherwise count `no_change`. -/
def bid_optimizer_step (cfg : BidConfig) (kws : List Keyword)
    (acc : BidAcc) (row : KwReportRow) : BidAcc :=
  if row.keywordId = "" then acc
  else
    match keyword_map kws row.keywordId with
    | none => acc
    | some kw =>
      match calculate_new_bid cfg kw.bid (row_metrics row) with
      | some nb =>
        if ¬ nb = 0 ∧ 1/100 < |nb - kw.bid| then
          if kw.bid < nb then
            ⟨⟨acc.results.keywords_analyzed + 1, acc.results.bids_increased + 1,
                acc.results.bids_decreased, acc.results.no_change⟩,
              acc.audits ++ [(row.keywordId, kw.bid, nb)],
              acc.updates ++ [(row.keywordId, nb)]⟩
          else
            ⟨⟨acc.results.keywords_analyzed + 1, acc.results.bids_increased,
                acc.results.bids_decreased + 1, acc.results.no_change⟩,
              acc.audits ++ [(row.keywordId, kw.bid, nb)],
              acc.updates ++ [(row.keywordId, nb)]⟩
        else
          ⟨⟨acc.results.keywords_analyzed + 1, acc.results.bids_increased,
              acc.results.bids_decreased, acc.results.no_change + 1⟩,
            acc.audits, acc.updates⟩
      | none =>
        ⟨⟨acc.results.keywords_analyzed + 1, acc.results.bids_increased,
            acc.results.bids_decreased, acc.results.no_change + 1⟩,
          acc.audits, acc.updates⟩

theorem append_singleton_ne {α : Type} (l : List α) (a : α) : l ++ [a] ≠ l := by
  intro h
  have h2 := congrArg List.length h
  simp at h2

/-- C3 counterexample: with `min_bid = 0` and `down_pct = 0.999`, a keyword
at bid $1.00 with 30 no-sale clicks gets computed bid `round2(0.001) = 0.00`;
the change `|0.00 − 1.00| = 1.00` exceeds the $0.01 dead-band, yet Python's
`if new_bid and ...` treats `0.0` as falsy, so the loop emits no audit entry
and no queued update and counts the keyword as `no_change` — contradicting
the claimed "if and only if" emission condition. -/
theorem c3_truthiness_counterexample :
    calculate_new_bid ⟨25, 5, 45/100, 60/100, 25/100, 15/100, 999/1000, 0, 5⟩ 1
        (row_metrics ⟨"7", 100, 30, 20, 0, 0⟩) = some 0 ∧
    (1 : ℚ)/100 < |(0 : ℚ) - 1| ∧
    bid_optimizer_step ⟨25, 5, 45/100, 60/100, 25/100, 15/100, 999/1000, 0, 5⟩
        [⟨"7", "g", "c", "w", "exact", "enabled", 1⟩]
        ⟨⟨0, 0, 0, 0⟩, [], []⟩ ⟨"7", 100, 30, 20, 0, 0⟩ =
      ⟨⟨1, 0, 0, 1⟩, [], []⟩ := by
  have hcb : calculate_new_bid ⟨25, 5, 45/100, 60/100, 25/100, 15/100, 999/1000, 0, 5⟩ 1
      (row_metrics ⟨"7", 100, 30, 20, 0, 0⟩) = some 0 := by
    norm_num [calculate_new_bid, calculate_new_bid_pre, PerformanceMetrics.acos,
      row_metrics, round2, pyRoundInt, min_def, max_def]
  refine ⟨hcb, by rw [zero_sub, abs_neg, abs_one]; norm_num, ?_⟩
  have hmap : keyword_map [⟨"7", "g", "c", "w", "exact", "enabled", 1⟩] "7" =
      some ⟨"7", "g", "c", "w", "exact", "enabled", 1⟩ := rfl
  simp only [bid_optimizer_step]
  rw [if_neg (by simp)]
  simp only [hmap, hcb]
  norm_num

/-- C3 (amended): in the `BidOptimizer.optimize` loop, an audit entry is
logged and a keyword update queued for a matched row if and only if a new
bid was computed, the computed bid is nonzero (Python's `if new_bid`
truthiness also drops a computed bid of exactly $0.00), and the change from
the current bid strictly exceeds $0.01; in every other computed case the
keyword is counted as `no_change` with no audit entry and no queued update. -/
theorem c3_deadband_rule (cfg : BidConfig) (kws : List Keyword)
    (acc : BidAcc) (row : KwReportRow) :
    (((bid_optimizer_step cfg kws acc row).audits ≠ acc.audits ∨
      (bid_optimizer_step cfg kws acc row).updates ≠ acc.updates) ↔
     (∃ kw nb, ¬ row.keywordId = "" ∧ keyword_map kws row.keywordId = some kw ∧
       calculate_new_bid cfg kw.bid (row_metrics row) = some nb ∧
       ¬ nb = 0 ∧ 1/100 < |nb - kw.bid|)) ∧
    (∀ kw nb, ¬ row.keywordId = "" → keyword_map kws row.keywordId = some kw →
      calculate_new_bid cfg kw.bid (row_metrics row) = some nb →
      ¬ (¬ nb = 0 ∧ 1/100 < |nb - kw.bid|) →
      bid_optimizer_step cfg kws acc row =
        ⟨⟨acc.results.keywords_analyzed + 1, acc.results.bids_increased,
          acc.results.bids_decreased, acc.results.no_change + 1⟩,
          acc.audits, acc.updates⟩) := by
  constructor
  · by_cases h0 : row.keywordId = ""
    · simp only [bid_optimizer_step, if_pos h0]
      apply iff_of_false
      · simp
      · rintro ⟨kw, nb, hid, -⟩
        exact hid h0
    · rcases Option.eq_none_or_eq_some (keyword_map kws row.keywordId) with
        hm | ⟨kw, hm⟩
      · simp only [bid_optimizer_step, if_neg h0, hm]
        apply iff_of_false
        · simp
        · rintro ⟨kw, nb, -, hmap, -⟩
          exact Option.noConfusion hmap
      · rcases Option.eq_none_or_eq_some
          (calculate_new_bid cfg kw.bid (row_metrics row)) with hnb | ⟨nb, hnb⟩
        · simp only [bid_optimizer_step, if_neg h0, hm, hnb]
          apply iff_of_false
          · simp
          · rintro ⟨kw', nb, -, hmap, hcb, -⟩
            cases Option.some.inj hmap
            rw [hnb] at hcb
            exact Option.noConfusion hcb
        · simp only [bid_optimizer_step, if_neg h0, hm, hnb]
          by_cases hc : ¬ nb = 0 ∧ 1/100 < |nb - kw.bid|
          · rw [if_pos hc]
            by_cases hgt : kw.bid < nb
            · rw [if_pos hgt]
              exact iff_of_true (Or.inl (append_singleton_ne _ _))
                ⟨kw, nb, h0, rfl, hnb, hc⟩
            · rw [if_neg hgt]
              exact iff_of_true (Or.inl (append_singleton_ne _ _))
                ⟨kw, nb, h0, rfl, hnb, hc⟩
          · rw [if_neg hc]
            apply iff_of_false
            · simp
            · rintro ⟨kw', nb', -, hmap, hcb, hnz, hd⟩
              cases Option.some.inj hmap
              rw [hnb] at hcb
              cases Option.some.inj hcb
              exact hc ⟨hnz, hd⟩
  · intro kw nb hid hmap hcb hnc
    simp only [bid_optimizer_step, if_neg hid, hmap, hcb, if_neg hnc]

/-- C3 witness for the amended no-change case: with `down_pct = 0.005`, a
no-sales keyword at bid $1.00 gets computed bid `round2(0.995) = 1.00`
(half-to-even), a change of $0.00 ≤ $0.01, so the loop leaves audits and
updates untouched and counts `no_change`. -/
theorem c3_deadband_rule_witness :
    bid_optimizer_step ⟨25, 5, 45/100, 60/100, 25/100, 15/100, 1/200, 1/4, 5⟩
        [⟨"7", "g", "c", "w", "exact", "enabled", 1⟩]
        ⟨⟨0, 0, 0, 0⟩, [], []⟩ ⟨"7", 100, 30, 20, 0, 0⟩ =
      ⟨⟨1, 0, 0, 1⟩, [], []⟩ :=
  (c3_deadband_rule ⟨25, 5, 45/100, 60/100, 25/100, 15/100, 1/200, 1/4, 5⟩
      [⟨"7", "g", "c", "w", "exact", "enabled", 1⟩]
      ⟨⟨0, 0, 0, 0⟩, [], []⟩ ⟨"7", 100, 30, 20, 0, 0⟩).2
    ⟨"7", "g", "c", "w", "exact", "enabled", 1⟩ 1
    (by simp)
    rfl
    (by norm_num [calculate_new_bid, calculate_new_bid_pre, PerformanceMetrics.acos,
      row_metrics, round2, pyRoundInt, min_def, max_def])
    (by norm_num)

/-- C10: the four derived ratios of `PerformanceMetrics` are total and use
these zero-denominator sentinels: `ctr = 0` when `impressions = 0`,
`roas = 0` when `cost = 0`, `cpc = 0` when `clicks = 0`, while `acos` is
`⊤` (the `float('inf')` sentinel) when `sales = 0` — the only ratio whose
zero-denominator value is `+∞` rather than `0`. -/
theorem c10_ratio_sentinels :
    (∀ c co s o, PerformanceMetrics.ctr ⟨0, c, co, s, o⟩ = 0) ∧
    (∀ i c s o, PerformanceMetrics.roas ⟨i, c, 0, s, o⟩ = 0) ∧
    (∀ i co s o, PerformanceMetrics.cpc ⟨i, 0, co, s, o⟩ = 0) ∧
    (∀ i c co o, PerformanceMetrics.acos ⟨i, c, co, 0, o⟩ = ⊤) ∧
    (∀ i c co o, PerformanceMetrics.acos ⟨i, c, co, 0, o⟩ ≠ ((0 : ℚ) : WithTop ℚ)) := by
  refine ⟨fun c co s o => ?_, fun i c s o => ?_, fun i co s o => ?_,
    fun i c co o => ?_, fun i c co o => ?_⟩ <;>
    simp [PerformanceMetrics.ctr, PerformanceMetrics.roas,
      PerformanceMetrics.cpc, PerformanceMetrics.acos]

/-- `Campaign` dataclass (optimizer_core.py lines 113-121). -/
structure Campaign where
  campaign_id : String
  name : String
  state : String
  daily_budget : ℚ
  targeting_type : String
  campaign_type : String
  deriving DecidableEq

/-- The three possible outcomes for one campaign row in
`CampaignManager.manage_campaigns`. -/
inductive CampaignAction where
  | activate
  | pause
  | noChange
  deriving DecidableEq

/-- The inline ACOS computation `(cost / sales) if sales > 0 else
float('inf')` repeated in `CampaignManager`, `KeywordDiscovery` and
`NegativeKeywordManager`. -/
def inline_acos (cost sales : ℚ) : WithTop ℚ :=
  if 0 < sales then ((cost / sales : ℚ) : WithTop ℚ) else ⊤

/-- Decision body of the `CampaignManager.manage_campaigns` loop
(optimizer_core.py lines 1286-1332): skip (count `no_change`) when
`cost < min_spend`; activate when `acos < acos_threshold` and the fetched
state is not `enabled`; pause when `acos > acos_threshold` and the fetched
state is `enabled`; otherwise count `no_change`. -/
def decide_campaign (thr ms : ℚ) (st : String) (cost sales : ℚ) : CampaignAction :=
  if cost < ms then CampaignAction.noChange
  else if inline_acos cost sales < (thr : WithTop ℚ) ∧ ¬ st = "enabled" then
    CampaignAction.activate
  else if (thr : WithTop ℚ) < inline_acos cost sales ∧ st = "enabled" then
    CampaignAction.pause
  else CampaignAction.noChange

/-- The counter dict initialized at the top of
`CampaignManager.manage_campaigns` (optimizer_core.py lines 1249-1253). -/
structure CampaignResults where
  campaigns_activated : ℕ
  campaigns_paused : ℕ
  no_change : ℕ
  deriving DecidableEq

/-- One row of the campaigns performance report. -/
structure CampReportRow where
  campaignId : String
  impressions : ℤ
  clicks : ℤ
  cost : ℚ
  sales : ℚ
  deriving DecidableEq

/-- `campaign_map = {c.campaign_id: c for c in campaigns}` — dict lookup,
last entry wins on duplicate ids. -/
def campaign_map (cs : List Campaign) (id : String) : Option Campaign :=
  cs.reverse.find? (fun c => c.campaign_id == id)

/-- One iteration of the `for row in report_data` loop of
`CampaignManager.manage_campaigns` (optimizer_core.py lines 1279-1332),
recording the decided action per campaign id. -/
def manage_campaigns_step (thr ms : ℚ) (campaigns : List Campaign)
    (acc : CampaignResults × List (String × CampaignAction))
    (row : CampReportRow) : CampaignResults × List (String × CampaignAction) :=
  if row.campaignId = "" then acc
  else
    match campaign_map campaigns row.campaignId with
    | none => acc
    | some c =>
      match decide_campaign thr ms c.state row.cost row.sales with
      | CampaignAction.activate =>
          (⟨acc.1.campaigns_activated + 1, acc.1.campaigns_paused, acc.1.no_change⟩,
            acc.2 ++ [(row.campaignId, CampaignAction.activate)])
      | CampaignAction.pause =>
          (⟨acc.1.campaigns_activated, acc.1.campaigns_paused + 1, acc.1.no_change⟩,
            acc.2 ++ [(row.campaignId, CampaignAction.pause)])
      | CampaignAction.noChange =>
          (⟨acc.1.campaigns_activated, acc.1.campaigns_paused, acc.1.no_change + 1⟩,
            acc.2)

/-- The report-row loop of `CampaignManager.manage_campaigns` over the
campaigns fetched once at the start of the run. -/
def manage_campaigns_run (thr ms : ℚ) (campaigns : List Campaign)
    (rows : List CampReportRow) :
    CampaignResults × List (String × CampaignAction) :=
  rows.foldl (manage_campaigns_step thr ms campaigns) (⟨0, 0, 0⟩, [])

theorem decide_campaign_activate_iff (thr ms : ℚ) (st : String) (cost sales : ℚ) :
    decide_campaign thr ms st cost sales = CampaignAction.activate ↔
      ms ≤ cost ∧ inline_acos cost sales < (thr : WithTop ℚ) ∧ ¬ st = "enabled" := by
  unfold decide_campaign
  split_ifs with h1 h2 h3 <;> simp_all [not_lt]

theorem decide_campaign_pause_iff (thr ms : ℚ) (st : String) (cost sales : ℚ) :
    decide_campaign thr ms st cost sales = CampaignAction.pause ↔
      ms ≤ cost ∧ (thr : WithTop ℚ) < inline_acos cost sales ∧ st = "enabled" := by
  unfold decide_campaign
  split_ifs with h1 h2 h3 <;> simp_all [not_lt]

theorem mem_manage_campaigns_actions (thr ms : ℚ) (campaigns : List Campaign) :
    ∀ (rows : List CampReportRow)
      (acc : CampaignResults × List (String × CampaignAction))
      (p : String × CampaignAction),
      p ∈ (rows.foldl (manage_campaigns_step thr ms campaigns) acc).2 →
      p ∈ acc.2 ∨ ∃ c cost sales, campaign_map campaigns p.1 = some c ∧
        decide_campaign thr ms c.state cost sales = p.2 := by
  intro rows
  induction rows with
  | nil => intro acc p hp; exact Or.inl hp
  | cons row rest ih =>
    intro acc p hp
    rcases ih _ p hp with h | h
    · by_cases h0 : row.campaignId = ""
      · simp only [manage_campaigns_step, if_pos h0] at h
        exact Or.inl h
      · rcases Option.eq_none_or_eq_some (campaign_map campaigns row.campaignId)
          with hm | ⟨c, hm⟩
        · simp only [manage_campaigns_step, if_neg h0, hm] at h
          exact Or.inl h
        · cases hdc : decide_campaign thr ms c.state row.cost row.sales with
          | activate =>
            simp only [manage_campaigns_step, if_neg h0, hm, hdc] at h
            simp only [List.mem_append, List.mem_singleton] at h
            rcases h with h | h
            · exact Or.inl h
            · subst h
              exact Or.inr ⟨c, row.cost, row.sales, hm, hdc⟩
          | pause =>
            simp only [manage_campaigns_step, if_neg h0, hm, hdc] at h
            simp only [List.mem_append, List.mem_singleton] at h
            rcases h with h | h
            · exact Or.inl h
            · subst h
              exact Or.inr ⟨c, row.cost, row.sales, hm, hdc⟩
          | noChange =>
            simp only [manage_campaigns_step, if_neg h0, hm, hdc] at h
            exact Or.inl h
    · exact Or.inr h

/-- C4: in one `CampaignManager.manage_campaigns` run the decision per
campaign row is exactly: activate iff `cost ≥ min_spend`, `acos <
acos_threshold` and the state fetched at the start of the run is not
`enabled`; pause iff `cost ≥ min_spend`, `acos > acos_threshold` and that
state is `enabled`; every other case (including `acos = acos_threshold`
exactly and `cost < min_spend`) is `no_change`; consequently the action
list of a whole run never contains both an activate and a pause for the
same campaign id. -/
theorem c4_campaign_rule (thr ms : ℚ) (st : String) (cost sales : ℚ) :
    (decide_campaign thr ms st cost sales = CampaignAction.activate ↔
      ms ≤ cost ∧ inline_acos cost sales < (thr : WithTop ℚ) ∧ ¬ st = "enabled") ∧
    (decide_campaign thr ms st cost sales = CampaignAction.pause ↔
      ms ≤ cost ∧ (thr : WithTop ℚ) < inline_acos cost sales ∧ st = "enabled") ∧
    (decide_campaign thr ms st cost sales = CampaignAction.noChange ↔
      (cost < ms ∨
        (¬ (inline_acos cost sales < (thr : WithTop ℚ) ∧ ¬ st = "enabled") ∧
         ¬ ((thr : WithTop ℚ) < inline_acos cost sales ∧ st = "enabled")))) ∧
    (∀ cost2 sales2,
      decide_campaign thr ms st cost sales ≠ CampaignAction.activate ∨
      decide_campaign thr ms st cost2 sales2 ≠ CampaignAction.pause) ∧
    (∀ (campaigns : List Campaign) (rows : List CampReportRow) (cid : String),
      (cid, CampaignAction.activate) ∉ (manage_campaigns_run thr ms campaigns rows).2 ∨
      (cid, CampaignAction.pause) ∉ (manage_campaigns_run thr ms campaigns rows).2) := by
  refine ⟨decide_campaign_activate_iff thr ms st cost sales,
    decide_campaign_pause_iff thr ms st cost sales, ?_, ?_, ?_⟩
  · unfold decide_campaign
    split_ifs with h1 h2 h3 <;> simp_all [not_lt]
  · intro cost2 sales2
    by_cases hst : st = "enabled"
    · left
      intro hact
      exact ((decide_campaign_activate_iff thr ms st cost sales).mp hact).2.2 hst
    · right
      intro hpau
      exact hst ((decide_campaign_pause_iff thr ms st cost2 sales2).mp hpau).2.2
  · intro campaigns rows cid
    by_cases hmem : (cid, CampaignAction.activate) ∈ (manage_campaigns_run thr ms campaigns rows).2
    · right
      intro hmem2
      rcases mem_manage_campaigns_actions thr ms campaigns rows _ _ hmem with h | ⟨c, co, sa, hmap, hdc⟩
      · simp at h
      rcases mem_manage_campaigns_actions thr ms campaigns rows _ _ hmem2 with h2 | ⟨c2, co2, sa2, hmap2, hdc2⟩
      · simp at h2
      have hcc : c = c2 := by
        rw [hmap] at hmap2
        exact Option.some.inj hmap2
      have ha := ((decide_campaign_activate_iff thr ms c.state co sa).mp hdc).2.2
      have hp := ((decide_campaign_pause_iff thr ms c2.state co2 sa2).mp hdc2).2.2
      rw [← hcc] at hp
      exact ha hp
    · left
      exact hmem

/-- Fuel-indexed chunking: the loop `for i in range(0, len(updates), 100)`
taking `updates[i:i+100]` slices, with the list length as fuel. -/
def batchesGo {α : Type} : ℕ → List α → List (List α)
  | 0, _ => []
  | _ + 1, [] => []
  | fuel + 1, a :: rest =>
      List.take 100 (a :: rest) :: batchesGo fuel (List.drop 100 (a :: rest))

/-- The consecutive 100-element chunks of a list, in order
(`batch_size = 100` in `AmazonAdsAPI.batch_update_keywords`). -/
def batches100 {α : Type} (l : List α) : List (List α) := batchesGo l.length l

/-- Chunk lengths as a function of the input length only. -/
def lensGo : ℕ → ℕ → List ℕ
  | 0, _ => []
  | fuel + 1, n => if n = 0 then [] else min 100 n :: lensGo fuel (n - 100)

theorem batchesGo_join {α : Type} :
    ∀ (fuel : ℕ) (l : List α), l.length ≤ fuel → (batchesGo fuel l).flatten = l := by
  intro fuel
  induction fuel with
  | zero =>
    intro l hl
    cases l with
    | nil => simp [batchesGo]
    | cons a rest => simp at hl
  | succ fuel ih =>
    intro l hl
    cases l with
    | nil => simp [batchesGo]
    | cons a rest =>
      have hd : (List.drop 100 (a :: rest)).length ≤ fuel := by
        simp only [List.length_drop, List.length_cons]
        simp only [List.length_cons] at hl
        omega
      simp only [batchesGo, List.flatten_cons, ih _ hd, List.take_append_drop]

theorem batchesGo_length {α : Type} :
    ∀ (fuel : ℕ) (l : List α), l.length ≤ fuel →
      (batchesGo fuel l).length = (l.length + 99) / 100 := by
  intro fuel
  induction fuel with
  | zero =>
    intro l hl
    cases l with
    | nil => simp [batchesGo]
    | cons a rest => simp at hl
  | succ fuel ih =>
    intro l hl
    cases l with
    | nil => simp [batchesGo]
    | cons a rest =>
      have hd : (List.drop 100 (a :: rest)).length ≤ fuel := by
        simp only [List.length_drop, List.length_cons]
        simp only [List.length_cons] at hl
        omega
      have := ih _ hd
      simp only [batchesGo, List.length_cons, this, List.length_drop]
      omega

theorem batchesGo_map_length {α : Type} :
    ∀ (fuel : ℕ) (l : List α), l.length ≤ fuel →
      (batchesGo fuel l).map List.length = lensGo fuel l.length := by
  intro fuel
  induction fuel with
  | zero =>
    intro l hl
    cases l with
    | nil => simp [batchesGo, lensGo]
    | cons a rest => simp at hl
  | succ fuel ih =>
    intro l hl
    cases l with
    | nil => simp [batchesGo, lensGo]
    | cons a rest =>
      have hd : (List.drop 100 (a :: rest)).length ≤ fuel := by
        simp only [List.length_drop, List.length_cons]
        simp only [List.length_cons] at hl
        omega
      simp only [batchesGo, List.map_cons, ih _ hd, List.length_take,
        List.length_drop, List.length_cons]
      simp [lensGo]

/-- The running tally dict of `AmazonAdsAPI.batch_update_keywords`
(optimizer_core.py lines 674-678). -/
structure BatchResults where
  total : ℕ
  success : ℕ
  failed : ℕ
  deriving DecidableEq

/-- Per-batch contribution to `results['success']`: the per-item `SUCCESS`
codes in the response; an exception contributes nothing. -/
def batch_succ_count {α : Type} (req : List α → Option (List String))
    (batch : List α) : ℕ :=
  match req batch with
  | some codes => codes.countP (fun c => c == "SUCCESS")
  | none => 0

/-- Per-batch contribution to `results['failed']`: non-`SUCCESS` codes of
the response, or the whole batch size when the request raised. -/
def batch_fail_count {α : Type} (req : List α → Option (List String))
    (batch : List α) : ℕ :=
  match req batch with
  | some codes => codes.countP (fun c => ! (c == "SUCCESS"))
  | none => batch.length

/-- Body of the batch loop of `AmazonAdsAPI.batch_update_keywords`
(optimizer_core.py lines 681-697): submit the batch (`req`); on a response,
count per-item codes into success/failed; on an exception, add the whole
batch to failed; either way continue with the next batch.  The second
component records the submitted batches in order. -/
def batch_update_step {α : Type} (req : List α → Option (List String))
    (acc : BatchResults × List (List α)) (batch : List α) :
    BatchResults × List (List α) :=
  match req batch with
  | some codes =>
      (⟨acc.1.total, acc.1.success + codes.countP (fun c => c == "SUCCESS"),
        acc.1.failed + codes.countP (fun c => ! (c == "SUCCESS"))⟩,
       acc.2 ++ [batch])
  | none =>
      (⟨acc.1.total, acc.1.success, acc.1.failed + batch.length⟩,
       acc.2 ++ [batch])

/-- `AmazonAdsAPI.batch_update_keywords` (optimizer_core.py lines 672-700). -/
def batch_update_keywords {α : Type} (req : List α → Option (List String))
    (updates : List α) : BatchResults × List (List α) :=
  (batches100 updates).foldl (batch_update_step req) (⟨updates.length, 0, 0⟩, [])

theorem batch_fold_char {α : Type} (req : List α → Option (List String)) :
    ∀ (bs : List (List α)) (t s f : ℕ) (tr : List (List α)),
      bs.foldl (batch_update_step req) (⟨t, s, f⟩, tr) =
        (⟨t, s + (bs.map (batch_succ_count req)).sum,
          f + (bs.map (batch_fail_count req)).sum⟩, tr ++ bs) := by
  intro bs
  induction bs with
  | nil => intro t s f tr; simp
  | cons b rest ih =>
    intro t s f tr
    rcases Option.eq_none_or_eq_some (req b) with hb | ⟨codes, hb⟩
    · simp only [List.foldl_cons, batch_update_step, hb, ih,
        batch_succ_count, batch_fail_count, List.map_cons, List.sum_cons]
      simp [add_assoc]
    · simp only [List.foldl_cons, batch_update_step, hb, ih,
        batch_succ_count, batch_fail_count, List.map_cons, List.sum_cons]
      simp [add_assoc]

/-- C5: `batch_update_keywords` on `n` updates submits exactly
`ceil(n/100)` requests, whose batches are the consecutive 100-element
chunks of the input in order (250 updates give 3 calls of sizes
100/100/50); a raised batch adds its whole size to `failed` without
aborting later batches (the submitted trace never depends on responses);
per-item `SUCCESS` codes increment `success` and all other codes increment
`failed`. -/
theorem c5_batch_update {α : Type} (req : List α → Option (List String))
    (updates : List α) :
    (batch_update_keywords req updates).2 = batches100 updates ∧
    (batch_update_keywords req updates).2.length = (updates.length + 99) / 100 ∧
    (batch_update_keywords req updates).2.flatten = updates ∧
    (updates.length = 250 →
      (batch_update_keywords req updates).2.map List.length = [100, 100, 50]) ∧
    (batch_update_keywords req updates).1.total = updates.length ∧
    (batch_update_keywords req updates).1.success =
      ((batches100 updates).map (batch_succ_count req)).sum ∧
    (batch_update_keywords req updates).1.failed =
      ((batches100 updates).map (batch_fail_count req)).sum := by
  have hrun := batch_fold_char req (batches100 updates) updates.length 0 0 []
  have htr : (batch_update_keywords req updates).2 = batches100 updates := by
    rw [batch_update_keywords, hrun]
    simp
  refine ⟨htr, ?_, ?_, ?_, ?_, ?_, ?_⟩
  · rw [htr, batches100]
    exact batchesGo_length updates.length updates le_rfl
  · rw [htr, batches100]
    exact batchesGo_join updates.length updates le_rfl
  · intro h250
    rw [htr, batches100, batchesGo_map_length updates.length updates le_rfl, h250]
    decide
  · rw [batch_update_keywords, hrun]
  · rw [batch_update_keywords, hrun]
    simp
  · rw [batch_update_keywords, hrun]
    simp

/-- C5 witness: on 250 concrete updates with every request raising, the
trace is still three batches of sizes 100/100/50. -/
theorem c5_batch_update_witness :
    (batch_update_keywords (fun _ => (none : Option (List String)))
        (List.replicate 250 (0 : ℕ))).2.map List.length = [100, 100, 50] :=
  (c5_batch_update (fun _ => none) (List.replicate 250 0)).2.2.2.1
    (by rw [List.length_replicate])

/-- Python `str.lower()` as used on keyword texts and queries, modelled
per character. -/
def pyLower (s : String) : String := String.mk (s.data.map Char.toLower)

/-- Python `str.strip()`: drop leading and trailing whitespace. -/
def pyStrip (s : String) : String :=
  String.mk (((s.data.dropWhile Char.isWhitespace).reverse.dropWhile
    Char.isWhitespace).reverse)

/-- One row of the search-term (`segment='query'`) report. -/
structure SearchTermRow where
  query : String
  campaignId : String
  adGroupId : String
  impressions : ℤ
  clicks : ℤ
  cost : ℚ
  sales : ℚ
  deriving DecidableEq

/-- A negative-keyword candidate as built by
`NegativeKeywordManager.add_negative_keywords` (optimizer_core.py
lines 1534-1539). -/
structure NegCandidate where
  campaignId : String
  keywordText : String
  match_type : String
  state : String
  deriving DecidableEq

/-- An existing negative keyword returned by
`AmazonAdsAPI.get_negative_keywords`. -/
structure NegKeywordItem where
  campaignId : String
  keywordText : String
  deriving DecidableEq

/-- `existing_negative_texts = {(nk['campaignId'], nk['keywordText'].lower())
for nk in existing_negatives}` (optimizer_core.py lines 1501-1504). -/
def build_negative_set (negs : List NegKeywordItem) : List (String × String) :=
  negs.map (fun nk => (nk.campaignId, pyLower nk.keywordText))

/-- Body of the search-term loop of
`NegativeKeywordManager.add_negative_keywords` (optimizer_core.py lines
1512-1549): skip on empty query or missing campaign id, on
`cost < min_spend`, on `acos < max_acos`, or when the
`(campaignId, lowercased query)` pair is already negative; otherwise emit a
`negativePhrase` candidate. -/
def neg_row_candidate (ms ma : ℚ) (existing : List (String × String))
    (row : SearchTermRow) : Option NegCandidate :=
  if pyLower (pyStrip row.query) = "" ∨ row.campaignId = "" then none
  else if row.cost < ms then none
  else if inline_acos row.cost row.sales < (ma : WithTop ℚ) then none
  else if (row.campaignId, pyLower (pyStrip row.query)) ∈ existing then none
  else some ⟨row.campaignId, pyLower (pyStrip row.query), "negativePhrase", "enabled"⟩

/-- C6 counterexample: a search-term row with empty query, $20 cost and
zero sales meets every condition the claim states — `cost ≥ min_spend`,
`acos = +∞ ≥ max_acos`, pair not among the existing negatives — yet the
loop's `if not query or not campaign_id: continue` guard drops it and no
candidate is emitted. -/
theorem c6_empty_query_counterexample :
    (10 : ℚ) ≤ (⟨"", "1", "g", 100, 3, 20, 0⟩ : SearchTermRow).cost ∧
    ((1 : ℚ) : WithTop ℚ) ≤
      inline_acos (⟨"", "1", "g", 100, 3, 20, 0⟩ : SearchTermRow).cost
        (⟨"", "1", "g", 100, 3, 20, 0⟩ : SearchTermRow).sales ∧
    (((⟨"", "1", "g", 100, 3, 20, 0⟩ : SearchTermRow).campaignId,
        pyLower (pyStrip (⟨"", "1", "g", 100, 3, 20, 0⟩ : SearchTermRow).query)) ∉
      ([] : List (String × String))) ∧
    neg_row_candidate 10 1 [] ⟨"", "1", "g", 100, 3, 20, 0⟩ = none := by
  refine ⟨by norm_num, ?_, by simp, ?_⟩
  · simp [inline_acos]
  · rfl

/-- C6 (amended): `NegativeKeywordManager` emits a negative-phrase-match
candidate for a search-term row exactly when the stripped lowercased query
is nonempty, a campaign id is present, `cost ≥ min_spend`,
`acos ≥ max_acos`, and the `(campaign id, lowercased query)` pair is not
already among the existing negatives; in particular a pair matching an
existing negative keyword (case-insensitively, same campaign) is never
proposed. -/
theorem c6_negative_rule (ms ma : ℚ) (existing : List (String × String))
    (row : SearchTermRow) :
    (neg_row_candidate ms ma existing row =
        some ⟨row.campaignId, pyLower (pyStrip row.query), "negativePhrase",
          "enabled"⟩ ↔
      (¬ pyLower (pyStrip row.query) = "" ∧ ¬ row.campaignId = "" ∧
        ms ≤ row.cost ∧ (ma : WithTop ℚ) ≤ inline_acos row.cost row.sales ∧
        (row.campaignId, pyLower (pyStrip row.query)) ∉ existing)) ∧
    (∀ negs : List NegKeywordItem, ∀ nk ∈ negs,
      nk.campaignId = row.campaignId →
      pyLower nk.keywordText = pyLower (pyStrip row.query) →
      neg_row_candidate ms ma (build_negative_set negs) row = none) := by
  constructor
  · unfold neg_row_candidate
    split_ifs with h1 h2 h3 h4
    · refine iff_of_false not_false ?_
      rintro ⟨hq, hc, -⟩
      rcases h1 with h | h
      · exact absurd h hq
      · exact absurd h hc
    · refine iff_of_false not_false ?_
      rintro ⟨-, -, hms, -⟩
      exact absurd hms (not_le.mpr h2)
    · refine iff_of_false not_false ?_
      rintro ⟨-, -, -, hma, -⟩
      exact absurd hma (not_le.mpr h3)
    · refine iff_of_false not_false ?_
      rintro ⟨-, -, -, -, hmem⟩
      exact absurd h4 hmem
    · exact iff_of_true (by trivial)
        ⟨(not_or.mp h1).1, (not_or.mp h1).2, not_lt.mp h2, not_lt.mp h3, h4⟩
  · intro negs nk hmem hcid htext
    have hin : (row.campaignId, pyLower (pyStrip row.query)) ∈
        build_negative_set negs := by
      unfold build_negative_set
      exact List.mem_map.mpr ⟨nk, hmem, by rw [hcid, htext]⟩
    unfold neg_row_candidate
    split_ifs with h1 h2 h3
    · rfl
    · rfl
    · rfl
    · rfl

/-- C6 witness: an existing negative "Dog Food" on campaign 1 suppresses
the candidate for the poor-performing query "dog food" on that campaign. -/
theorem c6_negative_rule_witness :
    neg_row_candidate 10 1 (build_negative_set [⟨"1", "Dog Food"⟩])
      ⟨"dog food", "1", "g", 100, 3, 20, 0⟩ = none :=
  (c6_negative_rule 10 1 (build_negative_set [⟨"1", "Dog Food"⟩])
      ⟨"dog food", "1", "g", 100, 3, 20, 0⟩).2
    [⟨"1", "Dog Food"⟩] ⟨"1", "Dog Food"⟩ (by simp) rfl (by decide)

/-- Client cache state: `self._campaigns_cache` (optimizer_core.py
line 357). -/
structure ApiState where
  campaigns_cache : Option (List Campaign)
  deriving DecidableEq

/-- Result of a `get_campaigns` call: the returned list, the client state
afterwards, and whether an HTTP request was issued. -/
structure GetCampaignsResult where
  items : List Campaign
  state : ApiState
  fetched : Bool
  deriving DecidableEq

/-- `AmazonAdsAPI.get_campaigns` (optimizer_core.py lines 491-527): serve
from the cache when `use_cache` holds, the cache is populated and no state
filter is given; otherwise issue the request (`fetch`, `none` = exception
path returning `[]` with the cache untouched) and cache the result only
when no state filter was applied. -/
def get_campaigns (fetch : Option String → Option (List Campaign))
    (state_filter : Option String) (use_cache : Bool) (s : ApiState) :
    GetCampaignsResult :=
  if use_cache = true ∧ ¬ s.campaigns_cache = none ∧ state_filter = none then
    ⟨s.campaigns_cache.getD [], s, false⟩
  else
    match fetch state_filter with
    | some cs =>
        ⟨cs, ⟨if state_filter = none then some cs else s.campaigns_cache⟩, true⟩
    | none => ⟨[], s, true⟩

/-- `AmazonAdsAPI.update_campaign` (optimizer_core.py lines 533-546):
on request success invalidate the campaigns cache and return `True`; on
exception return `False` with the cache untouched. -/
def update_campaign (request_ok : Bool) (s : ApiState) : Bool × ApiState :=
  if request_ok then (true, ⟨none⟩) else (false, s)

/-- `AmazonAdsAPI.create_campaign` (optimizer_core.py lines 548-561):
returns the created id (or `None`); the campaigns cache is not touched on
any path. -/
def create_campaign (response : Option String) (s : ApiState) :
    Option String × ApiState :=
  (response, s)

/-- C7 counterexample: populate the cache with an unfiltered
`get_campaigns`, then run a successful `create_campaign`; the next
unfiltered `get_campaigns` is served from the cache (`fetched = false`)
and returns the stale one-campaign list even though the fetch would now
return two campaigns — the claim says a successful create invalidates the
cache and forces a refetch. -/
theorem c7_create_cache_counterexample :
    (create_campaign (some "2")
        (get_campaigns
          (fun _ => some [⟨"1", "a", "enabled", 10, "manual", "sponsoredProducts"⟩])
          none true ⟨none⟩).state).1 = some "2" ∧
    get_campaigns
        (fun _ => some [⟨"1", "a", "enabled", 10, "manual", "sponsoredProducts"⟩,
          ⟨"2", "b", "enabled", 5, "manual", "sponsoredProducts"⟩])
        none true
        (create_campaign (some "2")
          (get_campaigns
            (fun _ => some [⟨"1", "a", "enabled", 10, "manual", "sponsoredProducts"⟩])
            none true ⟨none⟩).state).2 =
      ⟨[⟨"1", "a", "enabled", 10, "manual", "sponsoredProducts"⟩],
        ⟨some [⟨"1", "a", "enabled", 10, "manual", "sponsoredProducts"⟩]⟩, false⟩ := by
  constructor
  · rfl
  · rfl

/-- C7 (amended): `get_campaigns` populates the cache only on unfiltered
successful calls; unfiltered calls are served from the populated cache;
a successful `update_campaign` invalidates the cache so the next
unfiltered `get_campaigns` issues a request; but `create_campaign` leaves
the client state (hence the cache) unchanged, so an unfiltered
`get_campaigns` after a successful create is still served from the cache. -/
theorem c7_cache_rule (fetch : Option String → Option (List Campaign))
    (s : ApiState) :
    (∀ f uc, (get_campaigns fetch (some f) uc s).state = s) ∧
    (∀ l, s.campaigns_cache = some l →
      get_campaigns fetch none true s = ⟨l, s, false⟩) ∧
    (∀ cs, s.campaigns_cache = none → fetch none = some cs →
      get_campaigns fetch none true s = ⟨cs, ⟨some cs⟩, true⟩) ∧
    ((update_campaign true s).2.campaigns_cache = none) ∧
    (∀ response, (create_campaign response s).2 = s) ∧
    (∀ l, s.campaigns_cache = some l →
      (get_campaigns fetch none true (update_campaign true s).2).fetched = true) := by
  obtain ⟨cache⟩ := s
  refine ⟨?_, ?_, ?_, ?_, ?_, ?_⟩
  · intro f uc
    rcases Option.eq_none_or_eq_some (fetch (some f)) with hf | ⟨cs, hf⟩ <;>
      simp [get_campaigns, hf]
  · intro l hl
    simp only [ApiState.mk.injEq] at hl
    subst hl
    simp [get_campaigns]
  · intro cs hnone hf
    simp only [ApiState.mk.injEq] at hnone
    subst hnone
    simp [get_campaigns, hf]
  · simp [update_campaign]
  · intro response
    rfl
  · intro l hl
    simp only [ApiState.mk.injEq] at hl
    subst hl
    rcases Option.eq_none_or_eq_some (fetch none) with hf | ⟨cs, hf⟩ <;>
      simp [get_campaigns, update_campaign, hf]

/-- C7 witness: the cache-hit and the invalidate-then-refetch behaviour at
a concrete populated state, and the populate-on-fetch behaviour at a
concrete empty state. -/
theorem c7_cache_rule_witness :
    get_campaigns (fun _ => some []) none true
        ⟨some [⟨"1", "a", "enabled", 10, "manual", "sponsoredProducts"⟩]⟩ =
      ⟨[⟨"1", "a", "enabled", 10, "manual", "sponsoredProducts"⟩],
        ⟨some [⟨"1", "a", "enabled", 10, "manual", "sponsoredProducts"⟩]⟩, false⟩ ∧
    (get_campaigns (fun _ => some []) none true
        (update_campaign true
          ⟨some [⟨"1", "a", "enabled", 10, "manual", "sponsoredProducts"⟩]⟩).2).fetched
      = true ∧
    get_campaigns (fun _ => some []) none true ⟨none⟩ = ⟨[], ⟨some []⟩, true⟩ :=
  ⟨(c7_cache_rule (fun _ => some [])
      ⟨some [⟨"1", "a", "enabled", 10, "manual", "sponsoredProducts"⟩]⟩).2.1
      [⟨"1", "a", "enabled", 10, "manual", "sponsoredProducts"⟩] rfl,
   (c7_cache_rule (fun _ => some [])
      ⟨some [⟨"1", "a", "enabled", 10, "manual", "sponsoredProducts"⟩]⟩).2.2.2.2.2
      [⟨"1", "a", "enabled", 10, "manual", "sponsoredProducts"⟩] rfl,
   (c7_cache_rule (fun _ => some []) ⟨none⟩).2.2.1 [] rfl rfl⟩

/-- The `dayparting.*` and bid-cap configuration read by
`DaypartingManager` (optimizer_core.py lines 1192-1193, 1216-1233). -/
structure DaypartConfig where
  day_multipliers : List (String × ℚ)
  hour_multipliers : List (ℤ × ℚ)
  min_multiplier : ℚ
  max_multiplier : ℚ
  min_bid : ℚ
  max_bid : ℚ
  deriving DecidableEq

/-- `DaypartingManager._get_multiplier` (optimizer_core.py lines
1216-1233): day multiplier times hour multiplier (each defaulting to 1.0),
clamped to `[min_multiplier, max_multiplier]`. -/
def get_multiplier (cfg : DaypartConfig) (hour : ℤ) (day : String) : ℚ :=
  max cfg.min_multiplier (min cfg.max_multiplier
    (((cfg.day_multipliers.lookup day).getD 1) *
     ((cfg.hour_multipliers.lookup hour).getD 1)))

/-- Dict lookup in the `self.base_bids` map. -/
def alookup : List (String × ℚ) → String → Option ℚ
  | [], _ => none
  | (k, v) :: rest, id => if id = k then some v else alookup rest id

/-- The bid computed for one keyword in `DaypartingManager.apply_dayparting`
(optimizer_core.py lines 1188-1195): base bid times multiplier, clamped to
`[min_bid, max_bid]`, rounded to 2 decimals. -/
def daypart_target (cfg : DaypartConfig) (mult base : ℚ) : ℚ :=
  round2 (max cfg.min_bid (min cfg.max_bid (base * mult)))

/-- One keyword of the `for keyword in keywords` loop (optimizer_core.py
lines 1183-1195): record the base bid on first sight, then compute the
target from the stored base bid (never from the current bid once stored). -/
def daypart_step (cfg : DaypartConfig) (mult : ℚ)
    (base_bids : List (String × ℚ)) (kw : Keyword) :
    List (String × ℚ) × ℚ :=
  if (alookup base_bids kw.keyword_id).isSome then
    (base_bids,
      daypart_target cfg mult ((alookup base_bids kw.keyword_id).getD 0))
  else
    ((kw.keyword_id, kw.bid) :: base_bids, daypart_target cfg mult kw.bid)

/-- The keyword loop of `DaypartingManager.apply_dayparting`, threading the
process-lifetime `base_bids` map and collecting the computed target bids. -/
def daypart_run (cfg : DaypartConfig) (mult : ℚ) :
    List (String × ℚ) → List Keyword → List (String × ℚ) × List ℚ
  | bb, [] => (bb, [])
  | bb, kw :: rest =>
    ((daypart_run cfg mult (daypart_step cfg mult bb kw).1 rest).1,
     (daypart_step cfg mult bb kw).2 ::
       (daypart_run cfg mult (daypart_step cfg mult bb kw).1 rest).2)

theorem daypart_step_lookup (cfg : DaypartConfig) (mult : ℚ)
    (bb : List (String × ℚ)) (kw : Keyword) (id : String)
    (h : (alookup bb id).isSome) :
    alookup (daypart_step cfg mult bb kw).1 id = alookup bb id := by
  by_cases hk : (alookup bb kw.keyword_id).isSome
  · simp only [daypart_step, if_pos hk]
  · have hid : ¬ id = kw.keyword_id := fun he => hk (he ▸ h)
    simp only [daypart_step, if_neg hk, alookup, if_neg hid]

theorem daypart_step_records (cfg : DaypartConfig) (mult : ℚ)
    (bb : List (String × ℚ)) (kw : Keyword) :
    (alookup (daypart_step cfg mult bb kw).1 kw.keyword_id).isSome := by
  by_cases hk : (alookup bb kw.keyword_id).isSome
  · simpa only [daypart_step, if_pos hk] using hk
  · simp [daypart_step, if_neg hk, alookup]

theorem daypart_step_target (cfg : DaypartConfig) (mult : ℚ)
    (bb : List (String × ℚ)) (kw : Keyword) :
    (daypart_step cfg mult bb kw).2 =
      daypart_target cfg mult
        ((alookup (daypart_step cfg mult bb kw).1 kw.keyword_id).getD 0) := by
  by_cases hk : (alookup bb kw.keyword_id).isSome
  · simp only [daypart_step, if_pos hk]
  · simp [daypart_step, if_neg hk, alookup]

theorem daypart_step_state_noop (cfg : DaypartConfig) (mult : ℚ)
    (bb : List (String × ℚ)) (kw : Keyword)
    (h : (alookup bb kw.keyword_id).isSome) :
    (daypart_step cfg mult bb kw).1 = bb := by
  simp only [daypart_step, if_pos h]

theorem daypart_run_lookup (cfg : DaypartConfig) (mult : ℚ) :
    ∀ (kws : List Keyword) (bb : List (String × ℚ)) (id : String),
      (alookup bb id).isSome →
      alookup (daypart_run cfg mult bb kws).1 id = alookup bb id := by
  intro kws
  induction kws with
  | nil => intro bb id h; rfl
  | cons kw rest ih =>
    intro bb id h
    have h1 := daypart_step_lookup cfg mult bb kw id h
    have h2 : (alookup (daypart_step cfg mult bb kw).1 id).isSome := by
      rw [h1]; exact h
    calc alookup (daypart_run cfg mult bb (kw :: rest)).1 id
        = alookup (daypart_run cfg mult (daypart_step cfg mult bb kw).1 rest).1 id := rfl
      _ = alookup (daypart_step cfg mult bb kw).1 id := ih _ id h2
      _ = alookup bb id := h1

theorem daypart_run_mem (cfg : DaypartConfig) (mult : ℚ) :
    ∀ (kws : List Keyword) (bb : List (String × ℚ)) (id : String),
      id ∈ kws.map Keyword.keyword_id →
      (alookup (daypart_run cfg mult bb kws).1 id).isSome := by
  intro kws
  induction kws with
  | nil => intro bb id h; simp at h
  | cons kw rest ih =>
    intro bb id h
    rcases List.mem_cons.mp h with he | he
    · subst he
      have hrec := daypart_run_lookup cfg mult rest
        (daypart_step cfg mult bb kw).1 kw.keyword_id
        (daypart_step_records cfg mult bb kw)
      show (alookup (daypart_run cfg mult (daypart_step cfg mult bb kw).1 rest).1
        kw.keyword_id).isSome
      rw [hrec]
      exact daypart_step_records cfg mult bb kw
    · exact ih _ id he

theorem daypart_run_state_noop (cfg : DaypartConfig) (mult : ℚ) :
    ∀ (kws : List Keyword) (bb : List (String × ℚ)),
      (∀ kw ∈ kws, (alookup bb kw.keyword_id).isSome) →
      (daypart_run cfg mult bb kws).1 = bb := by
  intro kws
  induction kws with
  | nil => intro bb h; rfl
  | cons kw rest ih =>
    intro bb h
    have hstep := daypart_step_state_noop cfg mult bb kw (h kw (List.mem_cons_self kw rest))
    show (daypart_run cfg mult (daypart_step cfg mult bb kw).1 rest).1 = bb
    rw [hstep]
    exact ih bb (fun kw2 h2 => h kw2 (List.mem_cons_of_mem kw h2))

theorem daypart_run_targets (cfg : DaypartConfig) (mult : ℚ) :
    ∀ (kws : List Keyword) (bb : List (String × ℚ)),
      (daypart_run cfg mult bb kws).2 =
        kws.map (fun kw => daypart_target cfg mult
          ((alookup (daypart_run cfg mult bb kws).1 kw.keyword_id).getD 0)) := by
  intro kws
  induction kws with
  | nil => intro bb; rfl
  | cons kw rest ih =>
    intro bb
    have hrec := daypart_run_lookup cfg mult rest
      (daypart_step cfg mult bb kw).1 kw.keyword_id
      (daypart_step_records cfg mult bb kw)
    show (daypart_step cfg mult bb kw).2 ::
        (daypart_run cfg mult (daypart_step cfg mult bb kw).1 rest).2 = _
    rw [List.map_cons]
    congr 1
    · rw [daypart_step_target cfg mult bb kw]
      show _ = daypart_target cfg mult
        ((alookup (daypart_run cfg mult (daypart_step cfg mult bb kw).1 rest).1
          kw.keyword_id).getD 0)
      rw [hrec]
    · exact ih (daypart_step cfg mult bb kw).1

/-- C8: a dayparting target bid is
`round2(clamp(base_bid * clamp(day_mult * hour_mult, [min_mult, max_mult]),
[min_bid, max_bid]))` where `base_bid` is the bid stored the first time the
keyword was seen (independent of the keyword's current bid once stored),
so for a fixed hour, day and configuration a second dayparting invocation
over the same keyword ids — with arbitrarily changed current bids —
computes exactly the same target bids: multipliers never compound. -/
theorem c8_dayparting (cfg : DaypartConfig) (hour : ℤ) (day : String) :
    (∀ (bb : List (String × ℚ)) (kw : Keyword) (b : ℚ),
      alookup bb kw.keyword_id = some b →
      (daypart_step cfg (get_multiplier cfg hour day) bb kw).2 =
        daypart_target cfg (get_multiplier cfg hour day) b) ∧
    (∀ (bb : List (String × ℚ)) (kw : Keyword),
      alookup bb kw.keyword_id = none →
      (daypart_step cfg (get_multiplier cfg hour day) bb kw).2 =
        daypart_target cfg (get_multiplier cfg hour day) kw.bid ∧
      alookup (daypart_step cfg (get_multiplier cfg hour day) bb kw).1
          kw.keyword_id = some kw.bid) ∧
    (∀ base : ℚ, daypart_target cfg (get_multiplier cfg hour day) base =
      round2 (max cfg.min_bid (min cfg.max_bid (base *
        (max cfg.min_multiplier (min cfg.max_multiplier
          (((cfg.day_multipliers.lookup day).getD 1) *
           ((cfg.hour_multipliers.lookup hour).getD 1)))))))) ∧
    (∀ (kws1 kws2 : List Keyword),
      kws2.map Keyword.keyword_id = kws1.map Keyword.keyword_id →
      (daypart_run cfg (get_multiplier cfg hour day)
          (daypart_run cfg (get_multiplier cfg hour day) [] kws1).1 kws2).2 =
        (daypart_run cfg (get_multiplier cfg hour day) [] kws1).2) := by
  refine ⟨?_, ?_, ?_, ?_⟩
  · intro bb kw b hb
    have hk : (alookup bb kw.keyword_id).isSome := by rw [hb]; rfl
    simp only [daypart_step, if_pos hk]
    rw [hb]
    rfl
  · intro bb kw hb
    have hk : ¬ (alookup bb kw.keyword_id).isSome := by rw [hb]; simp
    constructor
    · simp only [daypart_step, if_neg hk]
    · simp [daypart_step, if_neg hk, alookup]
  · intro base
    rfl
  · intro kws1 kws2 hids
    have hmem2 : ∀ kw ∈ kws2,
        (alookup (daypart_run cfg (get_multiplier cfg hour day) [] kws1).1
          kw.keyword_id).isSome := by
      intro kw hkw
      apply daypart_run_mem cfg (get_multiplier cfg hour day) kws1 []
      rw [← hids]
      exact List.mem_map_of_mem Keyword.keyword_id hkw
    have hnoop := daypart_run_state_noop cfg (get_multiplier cfg hour day)
      kws2 (daypart_run cfg (get_multiplier cfg hour day) [] kws1).1 hmem2
    rw [daypart_run_targets cfg (get_multiplier cfg hour day) kws2, hnoop]
    rw [daypart_run_targets cfg (get_multiplier cfg hour day) kws1 []]
    have hmap : ∀ (kws : List Keyword),
        kws.map (fun kw => daypart_target cfg (get_multiplier cfg hour day)
          ((alookup (daypart_run cfg (get_multiplier cfg hour day) [] kws1).1
            kw.keyword_id).getD 0)) =
        (kws.map Keyword.keyword_id).map
          (fun id => daypart_target cfg (get_multiplier cfg hour day)
            ((alookup (daypart_run cfg (get_multiplier cfg hour day) [] kws1).1
              id).getD 0)) := by
      intro kws
      rw [List.map_map]
      rfl
    rw [hmap kws2, hmap kws1, hids]

/-- C8 witness: with day multiplier 2 (MONDAY) and hour multiplier 3
(hour 9) clamped to 1.8, a keyword first seen at bid $1.00 keeps target
`round2(1.8)` even when re-processed at current bid $2.00, and a second
run over the same id reproduces the first run's targets. -/
theorem c8_dayparting_witness :
    (daypart_step ⟨[("MONDAY", 2)], [(9, 3)], 2/5, 9/5, 1/4, 5⟩
        (get_multiplier ⟨[("MONDAY", 2)], [(9, 3)], 2/5, 9/5, 1/4, 5⟩ 9 "MONDAY")
        [("k1", 1)] ⟨"k1", "g", "c", "w", "exact", "enabled", 2⟩).2 =
      daypart_target ⟨[("MONDAY", 2)], [(9, 3)], 2/5, 9/5, 1/4, 5⟩
        (get_multiplier ⟨[("MONDAY", 2)], [(9, 3)], 2/5, 9/5, 1/4, 5⟩ 9 "MONDAY") 1 ∧
    (daypart_run ⟨[("MONDAY", 2)], [(9, 3)], 2/5, 9/5, 1/4, 5⟩
        (get_multiplier ⟨[("MONDAY", 2)], [(9, 3)], 2/5, 9/5, 1/4, 5⟩ 9 "MONDAY")
        (daypart_run ⟨[("MONDAY", 2)], [(9, 3)], 2/5, 9/5, 1/4, 5⟩
          (get_multiplier ⟨[("MONDAY", 2)], [(9, 3)], 2/5, 9/5, 1/4, 5⟩ 9 "MONDAY")
          [] [⟨"k1", "g", "c", "w", "exact", "enabled", 1⟩]).1
        [⟨"k1", "g", "c", "w", "exact", "enabled", 2⟩]).2 =
      (daypart_run ⟨[("MONDAY", 2)], [(9, 3)], 2/5, 9/5, 1/4, 5⟩
        (get_multiplier ⟨[("MONDAY", 2)], [(9, 3)], 2/5, 9/5, 1/4, 5⟩ 9 "MONDAY")
        [] [⟨"k1", "g", "c", "w", "exact", "enabled", 1⟩]).2 :=
  ⟨(c8_dayparting ⟨[("MONDAY", 2)], [(9, 3)], 2/5, 9/5, 1/4, 5⟩ 9 "MONDAY").1
      [("k1", 1)] ⟨"k1", "g", "c", "w", "exact", "enabled", 2⟩ 1 rfl,
   (c8_dayparting ⟨[("MONDAY", 2)], [(9, 3)], 2/5, 9/5, 1/4, 5⟩ 9 "MONDAY").2.2.2
      [⟨"k1", "g", "c", "w", "exact", "enabled", 1⟩]
      [⟨"k1", "g", "c", "w", "exact", "enabled", 2⟩] rfl⟩

/-- `BidOptimizer.optimize` (optimizer_core.py lines 977-1079) with the
report pipeline as oracles: `None` report id or `None` report URL returns
the zero-initialized counters; otherwise the report rows are processed by
`bid_optimizer_step`. -/
def bid_optimize (cfg : BidConfig) (report_id : Option String)
    (wait : String → Option String) (download : String → List KwReportRow)
    (keywords : List Keyword) : BidAcc :=
  match report_id with
  | none => ⟨⟨0, 0, 0, 0⟩, [], []⟩
  | some rid =>
    match wait rid with
    | none => ⟨⟨0, 0, 0, 0⟩, [], []⟩
    | some url =>
      (download url).foldl (bid_optimizer_step cfg keywords) ⟨⟨0, 0, 0, 0⟩, [], []⟩

/-- `CampaignManager.manage_campaigns` (optimizer_core.py lines 1244-1337)
with the report pipeline as oracles. -/
def manage_campaigns (thr ms : ℚ) (report_id : Option String)
    (wait : String → Option String) (download : String → List CampReportRow)
    (campaigns : List Campaign) :
    CampaignResults × List (String × CampaignAction) :=
  match report_id with
  | none => (⟨0, 0, 0⟩, [])
  | some rid =>
    match wait rid with
    | none => (⟨0, 0, 0⟩, [])
    | some url => manage_campaigns_run thr ms campaigns (download url)

/-- The counter dict initialized at the top of
`KeywordDiscovery.discover_keywords` (optimizer_core.py lines 1353-1356). -/
structure DiscoveryResults where
  keywords_discovered : ℕ
  keywords_added : ℕ
  deriving DecidableEq

/-- Body of the search-term loop of `KeywordDiscovery.discover_keywords`
(optimizer_core.py lines 1401-1448): skip on empty query or missing ad
group, on `clicks < min_clicks`, on `acos > max_acos`, or on an existing
`(ad_group_id, query, 'exact')` tuple; otherwise emit an exact-match
keyword candidate. -/
def discover_row_candidate (min_clicks : ℤ) (ma : ℚ)
    (existing : List (String × String × String)) (row : SearchTermRow) :
    Option (String × String) :=
  if pyLower (pyStrip row.query) = "" ∨ row.adGroupId = "" then none
  else if row.clicks < min_clicks then none
  else if (ma : WithTop ℚ) < inline_acos row.cost row.sales then none
  else if (row.adGroupId, pyLower (pyStrip row.query), "exact") ∈ existing then none
  else some (row.adGroupId, pyLower (pyStrip row.query))

/-- `KeywordDiscovery.discover_keywords` (optimizer_core.py lines
1348-1463) with the report pipeline and keyword creation as oracles. -/
def discover_keywords (min_clicks : ℤ) (ma : ℚ) (report_id : Option String)
    (wait : String → Option String) (download : String → List SearchTermRow)
    (existing : List (String × String × String)) (dry_run : Bool)
    (create : List (String × String) → List String) : DiscoveryResults :=
  match report_id with
  | none => ⟨0, 0⟩
  | some rid =>
    match wait rid with
    | none => ⟨0, 0⟩
    | some url =>
      ⟨((download url).filterMap (discover_row_candidate min_clicks ma existing)).length,
        if dry_run then
          ((download url).filterMap (discover_row_candidate min_clicks ma existing)).length
        else
          ((batches100 ((download url).filterMap
            (discover_row_candidate min_clicks ma existing))).map
              (fun b => (create b).length)).sum⟩

/-- The counter dict initialized at the top of
`NegativeKeywordManager.add_negative_keywords` (optimizer_core.py lines
1478-1480). -/
structure NegResults where
  negative_keywords_added : ℕ
  deriving DecidableEq

/-- `NegativeKeywordManager.add_negative_keywords` (optimizer_core.py
lines 1474-1562) with the report pipeline and negative-keyword creation as
oracles. -/
def add_negative_keywords (ms ma : ℚ) (report_id : Option String)
    (wait : String → Option String) (download : String → List SearchTermRow)
    (existing : List (String × String)) (dry_run : Bool)
    (create : List NegCandidate → List String) : NegResults :=
  match report_id with
  | none => ⟨0⟩
  | some rid =>
    match wait rid with
    | none => ⟨0⟩
    | some url =>
      ⟨if dry_run then
          ((download url).filterMap (neg_row_candidate ms ma existing)).length
        else
          ((batches100 ((download url).filterMap
            (neg_row_candidate ms ma existing))).map
              (fun b => (create b).length)).sum⟩

/-- C9: for each of the four decision modules, a failed report creation
(`None` report id) or a failed wait (`FAILURE`/`CANCELLED`/timeout, i.e.
`None` URL) makes the module return its zero-initialized result — no
counters incremented, no audits, no queued updates — and, the embedding
being total, no exception is raised, so sibling modules can still run. -/
theorem c9_report_failure (cfg : BidConfig) (kws : List Keyword)
    (rid1 : Option String) (w1 : String → Option String)
    (d1 : String → List KwReportRow)
    (thr ms : ℚ) (rid2 : Option String) (w2 : String → Option String)
    (d2 : String → List CampReportRow) (campaigns : List Campaign)
    (mc : ℤ) (ma3 : ℚ) (rid3 : Option String) (w3 : String → Option String)
    (d3 : String → List SearchTermRow)
    (ex3 : List (String × String × String)) (dry3 : Bool)
    (cr3 : List (String × String) → List String)
    (ms4 ma4 : ℚ) (rid4 : Option String) (w4 : String → Option String)
    (d4 : String → List SearchTermRow) (ex4 : List (String × String))
    (dry4 : Bool) (cr4 : List NegCandidate → List String) :
    ((rid1 = none ∨ ∃ r, rid1 = some r ∧ w1 r = none) →
      bid_optimize cfg rid1 w1 d1 kws = ⟨⟨0, 0, 0, 0⟩, [], []⟩) ∧
    ((rid2 = none ∨ ∃ r, rid2 = some r ∧ w2 r = none) →
      manage_campaigns thr ms rid2 w2 d2 campaigns = (⟨0, 0, 0⟩, [])) ∧
    ((rid3 = none ∨ ∃ r, rid3 = some r ∧ w3 r = none) →
      discover_keywords mc ma3 rid3 w3 d3 ex3 dry3 cr3 = ⟨0, 0⟩) ∧
    ((rid4 = none ∨ ∃ r, rid4 = some r ∧ w4 r = none) →
      add_negative_keywords ms4 ma4 rid4 w4 d4 ex4 dry4 cr4 = ⟨0⟩) := by
  refine ⟨?_, ?_, ?_, ?_⟩
  · rintro (rfl | ⟨r, rfl, hw⟩)
    · rfl
    · simp [bid_optimize, hw]
  · rintro (rfl | ⟨r, rfl, hw⟩)
    · rfl
    · simp [manage_campaigns, hw]
  · rintro (rfl | ⟨r, rfl, hw⟩)
    · rfl
    · simp [discover_keywords, hw]
  · rintro (rfl | ⟨r, rfl, hw⟩)
    · rfl
    · simp [add_negative_keywords, hw]

/-- C9 witness: all four modules at a failed report creation return their
zero dicts. -/
theorem c9_report_failure_witness :
    bid_optimize ⟨25, 5, 45/100, 60/100, 25/100, 15/100, 20/100, 25/100, 5⟩
        none (fun _ => none) (fun _ => []) [] = ⟨⟨0, 0, 0, 0⟩, [], []⟩ ∧
    manage_campaigns (45/100) 20 none (fun _ => none) (fun _ => []) [] =
      (⟨0, 0, 0⟩, []) ∧
    discover_keywords 5 (2/5) none (fun _ => none) (fun _ => []) [] true
        (fun _ => []) = ⟨0, 0⟩ ∧
    add_negative_keywords 10 1 none (fun _ => none) (fun _ => []) [] true
        (fun _ => []) = ⟨0⟩ :=
  have h := c9_report_failure ⟨25, 5, 45/100, 60/100, 25/100, 15/100, 20/100, 25/100, 5⟩
    [] none (fun _ => none) (fun _ => [])
    (45/100) 20 none (fun _ => none) (fun _ => []) []
    5 (2/5) none (fun _ => none) (fun _ => []) [] true (fun _ => [])
    10 1 none (fun _ => none) (fun _ => []) [] true (fun _ => [])
  ⟨h.1 (Or.inl rfl), h.2.1 (Or.inl rfl), h.2.2.1 (Or.inl rfl),
    h.2.2.2 (Or.inl rfl)⟩
